import Mathlib

/-!
Shallow embedding of the agent-management core (Rust, sqlx/Postgres) for
verification of its specification claims: domain entities
(src/domain/entities.rs), the application error type (src/shared/error.rs),
the SQLx-backed Agent repository (src/interface/repositories/sqlx_repository.rs)
and the use-case orchestrators (src/usecase/agent_management.rs,
src/usecase/task_management.rs).

Machine representation choices: UUIDs are opaque naturals, `DateTime<Utc>`
timestamps are opaque integers, `f64` values are their IEEE-754 bit patterns
(opaque naturals) — no claim computes on them. `serde_json::Value` is a small
JSON inductive; `HashMap<String, _>` is an association list (one iteration
order of the hash map), with map equality read off lookup-wise where needed.
The database is explicit state; every repository call threads it, returning
the committed state (transactions roll back to the input state on error).
-/

namespace AgentCore

/-- Opaque 128-bit UUID (uuid::Uuid), abstracted to a natural number. -/
abbrev Uuid := Nat

/-- Opaque UTC timestamp (chrono::DateTime<Utc>), abstracted to an integer. -/
abbrev Timestamp := Int

/-- IEEE-754 double, abstracted to its bit pattern. No claim computes on it. -/
abbrev F64 := Nat

/-- Model of serde_json::Value. -/
inductive Json where
  | null : Json
  | bool (b : Bool) : Json
  | num (n : F64) : Json
  | str (s : String) : Json
  | arr (elems : List Json) : Json
  | obj (fields : List (String × Json)) : Json

/-- AgentType enum (src/domain/entities.rs). -/
inductive AgentType where
  | Conversational
  | TaskExecutor
  | Learning
  | Monitoring
  | Orchestrator
  | Custom (tag : String)
deriving DecidableEq

/-- AgentStatus enum (src/domain/entities.rs). -/
inductive AgentStatus where
  | Active
  | Inactive
  | Training
  | Error
  | Maintenance
deriving DecidableEq

/-- Capability record (src/domain/entities.rs). -/
structure Capability where
  name : String
  description : String
  version : String
  parameters : List (String × String)
deriving DecidableEq

/-- ModelConfiguration (src/domain/entities.rs). -/
structure ModelConfiguration where
  model_name : String
  model_version : String
  parameters : List (String × F64)
  context_window : Nat
deriving DecidableEq

/-- ExecutionConfiguration (src/domain/entities.rs). -/
structure ExecutionConfiguration where
  max_concurrent_tasks : Nat
  timeout_seconds : Nat
  retry_attempts : Nat
  memory_limit_mb : Nat
deriving DecidableEq

/-- SecurityConfiguration (src/domain/entities.rs). -/
structure SecurityConfiguration where
  api_key_required : Bool
  rate_limit : Option Nat
  allowed_ips : List String
  encryption_enabled : Bool
deriving DecidableEq

/-- AgentConfiguration (src/domain/entities.rs). -/
structure AgentConfiguration where
  model_config : ModelConfiguration
  execution_config : ExecutionConfiguration
  security_config : SecurityConfiguration
deriving DecidableEq

/-- Agent aggregate root (src/domain/entities.rs). The AgentId newtype is
inlined as the raw Uuid. -/
structure Agent where
  id : Uuid
  name : String
  description : String
  agent_type : AgentType
  status : AgentStatus
  capabilities : List Capability
  configuration : AgentConfiguration
  metadata : List (String × String)
  created_at : Timestamp
  updated_at : Timestamp
deriving DecidableEq

/-- TaskType enum (src/domain/entities.rs). -/
inductive TaskType where
  | TextGeneration
  | ImageGeneration
  | DataAnalysis
  | ModelTraining
  | SystemMonitoring
  | Custom (tag : String)
deriving DecidableEq

/-- TaskStatus enum (src/domain/entities.rs). -/
inductive TaskStatus where
  | Pending
  | Running
  | Completed
  | Failed
  | Cancelled
deriving DecidableEq

/-- TaskPriority enum (src/domain/entities.rs). -/
inductive TaskPriority where
  | Low
  | Normal
  | High
  | Critical
deriving DecidableEq

/-- Task entity (src/domain/entities.rs), TaskId inlined as the raw Uuid. -/
structure Task where
  id : Uuid
  agent_id : Uuid
  name : String
  description : String
  task_type : TaskType
  status : TaskStatus
  priority : TaskPriority
  input_data : Json
  output_data : Option Json
  created_at : Timestamp
  started_at : Option Timestamp
  completed_at : Option Timestamp
  error_message : Option String

/-! ### serde_json serialization model

serde's externally-tagged enum encoding: a unit variant serializes to its
name as a JSON string, a newtype variant to a one-field object. Structs
serialize to objects listing each field. The decoders accept exactly the
values the encoders produce (all stored JSON in this system is produced by
serde_json::to_value of these same types), except the string-map decoder,
which — like serde's HashMap<String, String> Deserialize — accepts any JSON
object whose values are all strings and rejects everything else. -/

/-- serde_json::to_value for HashMap<String, String>. -/
def strMapToJson (m : List (String × String)) : Json :=
  .obj (m.map (fun p => (p.1, .str p.2)))

/-- Decode the entry list of a JSON object into string pairs; fails if any
value is not a JSON string. -/
def strMapEntriesFromJson? : List (String × Json) → Option (List (String × String))
  | [] => some []
  | (k, .str v) :: rest => (strMapEntriesFromJson? rest).map (fun m => (k, v) :: m)
  | _ => none

/-- serde_json::from_value for HashMap<String, String>: succeeds exactly on
JSON objects all of whose values are strings. -/
def strMapFromJson? : Json → Option (List (String × String))
  | .obj fields => strMapEntriesFromJson? fields
  | _ => none

theorem strMapEntries_roundtrip (m : List (String × String)) :
    strMapEntriesFromJson? (m.map (fun p => (p.1, .str p.2))) = some m := by
  induction m with
  | nil => rfl
  | cons hd tl ih => cases hd; simp [strMapEntriesFromJson?, ih]

theorem strMap_roundtrip (m : List (String × String)) :
    strMapFromJson? (strMapToJson m) = some m := by
  simp [strMapToJson, strMapFromJson?, strMapEntries_roundtrip]

/-- serde_json::to_value for HashMap<String, f64>. -/
def f64MapToJson (m : List (String × F64)) : Json :=
  .obj (m.map (fun p => (p.1, .num p.2)))

/-- Decode the entry list of a JSON object into f64 pairs. -/
def f64MapEntriesFromJson? : List (String × Json) → Option (List (String × F64))
  | [] => some []
  | (k, .num v) :: rest => (f64MapEntriesFromJson? rest).map (fun m => (k, v) :: m)
  | _ => none

/-- serde_json::from_value for HashMap<String, f64>. -/
def f64MapFromJson? : Json → Option (List (String × F64))
  | .obj fields => f64MapEntriesFromJson? fields
  | _ => none

theorem f64MapEntries_roundtrip (m : List (String × F64)) :
    f64MapEntriesFromJson? (m.map (fun p => (p.1, .num p.2))) = some m := by
  induction m with
  | nil => rfl
  | cons hd tl ih => cases hd; simp [f64MapEntriesFromJson?, ih]

theorem f64Map_roundtrip (m : List (String × F64)) :
    f64MapFromJson? (f64MapToJson m) = some m := by
  simp [f64MapToJson, f64MapFromJson?, f64MapEntries_roundtrip]

/-- serde_json::to_value for Vec<String>. -/
def strListToJson (l : List String) : Json :=
  .arr (l.map .str)

/-- serde_json::from_value for Vec<String>. -/
def strListFromJson? : Json → Option (List String)
  | .arr elems =>
    let rec go : List Json → Option (List String)
      | [] => some []
      | .str s :: rest => (go rest).map (fun l => s :: l)
      | _ => none
    go elems
  | _ => none

theorem strList_roundtrip (l : List String) :
    strListFromJson? (strListToJson l) = some l := by
  simp only [strListToJson, strListFromJson?]
  induction l with
  | nil => rfl
  | cons hd tl ih => simp [strListFromJson?.go, ih]

/-- serde_json::to_value for AgentType. -/
def AgentType.toJson : AgentType → Json
  | .Conversational => .str "Conversational"
  | .TaskExecutor => .str "TaskExecutor"
  | .Learning => .str "Learning"
  | .Monitoring => .str "Monitoring"
  | .Orchestrator => .str "Orchestrator"
  | .Custom tag => .obj [("Custom", .str tag)]

/-- serde_json::from_value for AgentType. -/
def AgentType.fromJson? : Json → Option AgentType
  | .str "Conversational" => some .Conversational
  | .str "TaskExecutor" => some .TaskExecutor
  | .str "Learning" => some .Learning
  | .str "Monitoring" => some .Monitoring
  | .str "Orchestrator" => some .Orchestrator
  | .obj [("Custom", .str tag)] => some (.Custom tag)
  | _ => none

theorem AgentType_roundtrip (t : AgentType) :
    AgentType.fromJson? t.toJson = some t := by
  cases t <;> rfl

/-- serde_json::to_value for AgentStatus. -/
def AgentStatus.toJson : AgentStatus → Json
  | .Active => .str "Active"
  | .Inactive => .str "Inactive"
  | .Training => .str "Training"
  | .Error => .str "Error"
  | .Maintenance => .str "Maintenance"

/-- serde_json::from_value for AgentStatus. -/
def AgentStatus.fromJson? : Json → Option AgentStatus
  | .str "Active" => some .Active
  | .str "Inactive" => some .Inactive
  | .str "Training" => some .Training
  | .str "Error" => some .Error
  | .str "Maintenance" => some .Maintenance
  | _ => none

theorem AgentStatus_roundtrip (s : AgentStatus) :
    AgentStatus.fromJson? s.toJson = some s := by
  cases s <;> rfl

/-- serde_json::to_value for Option<u32> (None → null). -/
def optNatToJson : Option Nat → Json
  | none => .null
  | some n => .num n

/-- serde_json::from_value for Option<u32>. -/
def optNatFromJson? : Json → Option (Option Nat)
  | .null => some none
  | .num n => some (some n)
  | _ => none

theorem optNat_roundtrip (o : Option Nat) :
    optNatFromJson? (optNatToJson o) = some o := by
  cases o <;> rfl

/-- serde_json::to_value for ModelConfiguration. -/
def ModelConfiguration.toJson (c : ModelConfiguration) : Json :=
  .obj [("model_name", .str c.model_name),
        ("model_version", .str c.model_version),
        ("parameters", f64MapToJson c.parameters),
        ("context_window", .num c.context_window)]

/-- serde_json::from_value for ModelConfiguration (accepts the shapes the
encoder produces). -/
def ModelConfiguration.fromJson? : Json → Option ModelConfiguration
  | .obj [("model_name", .str mn),
          ("model_version", .str mv),
          ("parameters", ps),
          ("context_window", .num cw)] =>
    (f64MapFromJson? ps).map (fun m => ⟨mn, mv, m, cw⟩)
  | _ => none

theorem ModelConfiguration_roundtrip (c : ModelConfiguration) :
    ModelConfiguration.fromJson? c.toJson = some c := by
  cases c
  simp [ModelConfiguration.toJson, ModelConfiguration.fromJson?, f64Map_roundtrip]

/-- serde_json::to_value for ExecutionConfiguration. -/
def ExecutionConfiguration.toJson (c : ExecutionConfiguration) : Json :=
  .obj [("max_concurrent_tasks", .num c.max_concurrent_tasks),
        ("timeout_seconds", .num c.timeout_seconds),
        ("retry_attempts", .num c.retry_attempts),
        ("memory_limit_mb", .num c.memory_limit_mb)]

/-- serde_json::from_value for ExecutionConfiguration. -/
def ExecutionConfiguration.fromJson? : Json → Option ExecutionConfiguration
  | .obj [("max_concurrent_tasks", .num a),
          ("timeout_seconds", .num b),
          ("retry_attempts", .num c),
          ("memory_limit_mb", .num d)] => some ⟨a, b, c, d⟩
  | _ => none

theorem ExecutionConfiguration_roundtrip (c : ExecutionConfiguration) :
    ExecutionConfiguration.fromJson? c.toJson = some c := by
  cases c; rfl

/-- serde_json::to_value for SecurityConfiguration. -/
def SecurityConfiguration.toJson (c : SecurityConfiguration) : Json :=
  .obj [("api_key_required", .bool c.api_key_required),
        ("rate_limit", optNatToJson c.rate_limit),
        ("allowed_ips", strListToJson c.allowed_ips),
        ("encryption_enabled", .bool c.encryption_enabled)]

/-- serde_json::from_value for SecurityConfiguration. -/
def SecurityConfiguration.fromJson? : Json → Option SecurityConfiguration
  | .obj [("api_key_required", .bool a),
          ("rate_limit", rl),
          ("allowed_ips", ips),
          ("encryption_enabled", .bool e)] =>
    match optNatFromJson? rl, strListFromJson? ips with
    | some r, some i => some ⟨a, r, i, e⟩
    | _, _ => none
  | _ => none

theorem SecurityConfiguration_roundtrip (c : SecurityConfiguration) :
    SecurityConfiguration.fromJson? c.toJson = some c := by
  cases c
  simp [SecurityConfiguration.toJson, SecurityConfiguration.fromJson?,
    optNat_roundtrip, strList_roundtrip]

/-! ### Errors (src/shared/error.rs, src/interface/repositories/sqlx_repository.rs) -/

/-- Model of sqlx::Error as far as the repository distinguishes it:
RowNotFound, a database error carrying an optional SQLSTATE code, and
everything else. -/
inductive SqlxError where
  | rowNotFound
  | database (code : Option String)
  | other
deriving DecidableEq

/-- Application error type (src/shared/error.rs), restricted to the variants
the verified core can produce. -/
inductive Error where
  | DatabaseError (err : SqlxError)
  | SerializationError
  | ValidationError (msg : String)
  | NotFound (msg : String)
  | Conflict (msg : String)
deriving DecidableEq

/-- From<SqlxError> for Error (src/interface/repositories/sqlx_repository.rs
lines 400-418): RowNotFound becomes NotFound; database errors with SQLSTATE
23505/23503 become Conflict; everything else stays a DatabaseError. -/
def Error.ofSqlx : SqlxError → Error
  | .rowNotFound => .NotFound "Row not found"
  | .database (some code) =>
    if code = "23505" then .Conflict "Unique constraint violation"
    else if code = "23503" then .Conflict "Foreign key constraint violation"
    else .DatabaseError (.database (some code))
  | .database none => .DatabaseError (.database none)
  | .other => .DatabaseError .other

/-! ### Relational store (tables behind SqlxAgentRepository)

The migration files defining the schema are not part of src/; the row shapes
are read off the SQL in sqlx_repository.rs and the constraints are modelled
from the spec (see insertAgentRow / updateAgentsTable). -/

/-- Row of the agents table (columns as selected in sqlx_repository.rs). -/
structure AgentRow where
  id : Uuid
  name : String
  description : String
  agent_type : Json
  status : Json
  created_at : Timestamp
  updated_at : Timestamp

/-- Row of the agent_capabilities table. -/
structure CapabilityRow where
  agent_id : Uuid
  name : String
  description : String
  version : String
  parameters : Json

/-- Row of the agent_configurations table. -/
structure ConfigurationRow where
  agent_id : Uuid
  model_config : Json
  execution_config : Json
  security_config : Json

/-- Row of the agent_metadata table. -/
structure MetadataRow where
  agent_id : Uuid
  key : String
  value : String

/-- The relational database state visible to SqlxAgentRepository. -/
structure Db where
  agents : List AgentRow
  agent_capabilities : List CapabilityRow
  agent_configurations : List ConfigurationRow
  agent_metadata : List MetadataRow

/-- Root row an Agent aggregate serializes to (the INSERT in create). -/
def agentRowOf (a : Agent) : AgentRow :=
  { id := a.id, name := a.name, description := a.description,
    agent_type := a.agent_type.toJson, status := a.status.toJson,
    created_at := a.created_at, updated_at := a.updated_at }

/-- Capability row inserted for one capability of an agent. -/
def capRowOf (aid : Uuid) (c : Capability) : CapabilityRow :=
  { agent_id := aid, name := c.name, description := c.description,
    version := c.version, parameters := strMapToJson c.parameters }

/-- Configuration row inserted for an agent. -/
def cfgRowOf (a : Agent) : ConfigurationRow :=
  { agent_id := a.id,
    model_config := a.configuration.model_config.toJson,
    execution_config := a.configuration.execution_config.toJson,
    security_config := a.configuration.security_config.toJson }

/-- Metadata row inserted for one metadata entry of an agent. -/
def metaRowOf (aid : Uuid) (p : String × String) : MetadataRow :=
  { agent_id := aid, key := p.1, value := p.2 }

/-- Modelled from the spec: the agents table's constraints. The migration
files are not in src/; spec section 3 fixes `id` as the key and `name` as
unique across the system, and the error map in sqlx_repository.rs expects
Postgres to reject violations with SQLSTATE 23505. INSERT therefore fails
with a unique-constraint database error when an existing root row shares the
id or the name. -/
def insertAgentRow (rows : List AgentRow) (row : AgentRow) :
    Except SqlxError (List AgentRow) :=
  if rows.any (fun r => r.id == row.id || r.name == row.name) then
    .error (.database (some "23505"))
  else
    .ok (rows ++ [row])

/-- Row-wise effect of the UPDATE agents statement (sqlx_repository.rs lines
277-291): rows matching the id get the new name, description, serialized
type and status, and `Utc::now()` as updated_at; other rows are untouched. -/
def rootUpdateRow (a : Agent) (now : Timestamp) (r : AgentRow) : AgentRow :=
  if r.id == a.id then
    { r with name := a.name, description := a.description,
             agent_type := a.agent_type.toJson, status := a.status.toJson,
             updated_at := now }
  else r

/-- Modelled from the spec: UPDATE agents SET name = ... must respect the
same unique-name constraint; Postgres rejects the write with SQLSTATE 23505
when a DIFFERENT root row already carries the new name (updating a row to
its own current name is fine). When no row matches the id the UPDATE
affects zero rows and succeeds. -/
def updateAgentsTable (rows : List AgentRow) (a : Agent) (now : Timestamp) :
    Except SqlxError (List AgentRow) :=
  if rows.any (fun r => r.id != a.id && r.name == a.name) then
    .error (.database (some "23505"))
  else
    .ok (rows.map (rootUpdateRow a now))

/-- Row-wise effect of the UPDATE agent_configurations statement
(sqlx_repository.rs lines 321-333). -/
def cfgUpdateRow (a : Agent) (c : ConfigurationRow) : ConfigurationRow :=
  if c.agent_id == a.id then
    { c with model_config := a.configuration.model_config.toJson,
             execution_config := a.configuration.execution_config.toJson,
             security_config := a.configuration.security_config.toJson }
  else c

/-- SqlxAgentRepository::create (sqlx_repository.rs lines 22-92): one
transaction inserting the root row, one row per capability, exactly one
configuration row and one row per metadata entry, committing at the end.
On any error the transaction is dropped and rolled back: the returned state
is the input state. On success the input aggregate is echoed back
unchanged (`Ok(agent.clone())`). -/
def create (db : Db) (agent : Agent) : Db × Except Error Agent :=
  match insertAgentRow db.agents (agentRowOf agent) with
  | .error e => (db, .error (Error.ofSqlx e))
  | .ok agents' =>
    let caps' := db.agent_capabilities ++ agent.capabilities.map (capRowOf agent.id)
    let cfgs' := db.agent_configurations ++ [cfgRowOf agent]
    let metas' := db.agent_metadata ++ agent.metadata.map (metaRowOf agent.id)
    ({ agents := agents', agent_capabilities := caps',
       agent_configurations := cfgs', agent_metadata := metas' },
     .ok agent)

/-- Capability assembled from a stored row (the map inside find_by_id,
sqlx_repository.rs lines 111-131): parameters that fail to deserialize into
a string map fall back to the empty map via `unwrap_or_default()`. -/
def capOfRow (row : CapabilityRow) : Capability :=
  { name := row.name, description := row.description, version := row.version,
    parameters := (strMapFromJson? row.parameters).getD [] }

/-- SqlxAgentRepository::find_by_id (sqlx_repository.rs lines 94-185):
fetch_optional on the root row (None ⇒ Ok(None)); fetch_all of the
capability rows, each decoded with a silent empty-map default for bad
parameters; fetch_one of the configuration row (a missing row surfaces
sqlx's RowNotFound through the `?` and the From conversion); fetch_all of
the metadata rows; then serde deserialization of type, status and the three
configuration columns, any failure of which surfaces as an error. -/
def find_by_id (db : Db) (id : Uuid) : Except Error (Option Agent) :=
  match db.agents.find? (fun r => r.id == id) with
  | none => .ok none
  | some row =>
    let capabilities :=
      (db.agent_capabilities.filter (fun c => c.agent_id == id)).map capOfRow
    match db.agent_configurations.find? (fun c => c.agent_id == id) with
    | none => .error (Error.ofSqlx .rowNotFound)
    | some cfg =>
      let metadata :=
        (db.agent_metadata.filter (fun m => m.agent_id == id)).map
          (fun m => (m.key, m.value))
      match AgentType.fromJson? row.agent_type, AgentStatus.fromJson? row.status,
            ModelConfiguration.fromJson? cfg.model_config,
            ExecutionConfiguration.fromJson? cfg.execution_config,
            SecurityConfiguration.fromJson? cfg.security_config with
      | some ty, some st, some mc, some ec, some sc =>
        .ok (some
          { id := row.id, name := row.name, description := row.description,
            agent_type := ty, status := st, capabilities := capabilities,
            configuration := ⟨mc, ec, sc⟩, metadata := metadata,
            created_at := row.created_at, updated_at := row.updated_at })
      | _, _, _, _, _ => .error .SerializationError

/-- SqlxAgentRepository::update (sqlx_repository.rs lines 273-363): one
transaction that updates the root row (writing `Utc::now()` — here the
explicit `now` argument — into updated_at), deletes all capability rows for
the id and reinserts the supplied ones, updates the configuration row, and
deletes all metadata rows for the id and reinserts the supplied ones. On
error the transaction rolls back to the input state; on success the input
aggregate is echoed back unchanged (`Ok(agent.clone())`). -/
def update (db : Db) (agent : Agent) (now : Timestamp) : Db × Except Error Agent :=
  match updateAgentsTable db.agents agent now with
  | .error e => (db, .error (Error.ofSqlx e))
  | .ok agents' =>
    let caps' :=
      db.agent_capabilities.filter (fun c => !(c.agent_id == agent.id)) ++
        agent.capabilities.map (capRowOf agent.id)
    let cfgs' := db.agent_configurations.map (cfgUpdateRow agent)
    let metas' :=
      db.agent_metadata.filter (fun m => !(m.agent_id == agent.id)) ++
        agent.metadata.map (metaRowOf agent.id)
    ({ agents := agents', agent_capabilities := caps',
       agent_configurations := cfgs', agent_metadata := metas' },
     .ok agent)

/-! ### Use-case orchestrators (src/usecase)

The orchestrators call their collaborators only through the repository and
service traits (Box<dyn TaskRepository> etc.), so they are embedded
parametrically over records of operations on an abstract world state σ.
Every repository call an orchestrator makes is additionally recorded in a
call log, which is the semantics of "invokes the persistence layer". -/

/-- Operations of the TaskRepository trait used by the transition methods of
TaskManagementUseCase. -/
structure TaskRepoOps (σ : Type) where
  find_by_id : σ → Uuid → σ × Except Error (Option Task)
  update : σ → Task → σ × Except Error Task

/-- Operations of the TaskManagementService trait used by the transition
methods (a domain-service collaborator, consumed, not implemented here). -/
structure TaskServiceOps (σ : Type) where
  start_task : σ → Uuid → σ × Except Error Task
  complete_task : σ → Uuid → Json → σ × Except Error Task
  fail_task : σ → Uuid → String → σ × Except Error Task
  cancel_task : σ → Uuid → σ × Except Error Task

/-- Record of one TaskRepository call made by an orchestrator method. -/
inductive TaskRepoCall where
  | findById (id : Uuid)
  | update (t : Task)

/-- Whether a recorded repository call is an update. -/
def TaskRepoCall.isUpdate : TaskRepoCall → Bool
  | .update _ => true
  | _ => false

/-- NotFound message the task orchestrator builds
(format with the task id, src/usecase/task_management.rs). -/
def taskNotFoundMsg (id : Uuid) : String :=
  "Task with id " ++ toString id ++ " not found"

/-- TaskManagementUseCase::start_task (task_management.rs lines 46-60):
look the task up, convert a missing row into NotFound, ask the domain
service for the started task, persist it via repository update. -/
def start_task (repo : TaskRepoOps σ) (svc : TaskServiceOps σ)
    (s : σ) (task_id : Uuid) : σ × List TaskRepoCall × Except Error Task :=
  match repo.find_by_id s task_id with
  | (s1, .error e) => (s1, [.findById task_id], .error e)
  | (s1, .ok none) => (s1, [.findById task_id], .error (.NotFound (taskNotFoundMsg task_id)))
  | (s1, .ok (some _task)) =>
    match svc.start_task s1 task_id with
    | (s2, .error e) => (s2, [.findById task_id], .error e)
    | (s2, .ok started_task) =>
      match repo.update s2 started_task with
      | (s3, r) => (s3, [.findById task_id, .update started_task], r)

/-- TaskManagementUseCase::complete_task (task_management.rs lines 63-77). -/
def complete_task (repo : TaskRepoOps σ) (svc : TaskServiceOps σ)
    (s : σ) (task_id : Uuid) (output : Json) :
    σ × List TaskRepoCall × Except Error Task :=
  match repo.find_by_id s task_id with
  | (s1, .error e) => (s1, [.findById task_id], .error e)
  | (s1, .ok none) => (s1, [.findById task_id], .error (.NotFound (taskNotFoundMsg task_id)))
  | (s1, .ok (some _task)) =>
    match svc.complete_task s1 task_id output with
    | (s2, .error e) => (s2, [.findById task_id], .error e)
    | (s2, .ok completed_task) =>
      match repo.update s2 completed_task with
      | (s3, r) => (s3, [.findById task_id, .update completed_task], r)

/-- TaskManagementUseCase::fail_task (task_management.rs lines 80-94). -/
def fail_task (repo : TaskRepoOps σ) (svc : TaskServiceOps σ)
    (s : σ) (task_id : Uuid) (error_message : String) :
    σ × List TaskRepoCall × Except Error Task :=
  match repo.find_by_id s task_id with
  | (s1, .error e) => (s1, [.findById task_id], .error e)
  | (s1, .ok none) => (s1, [.findById task_id], .error (.NotFound (taskNotFoundMsg task_id)))
  | (s1, .ok (some _task)) =>
    match svc.fail_task s1 task_id error_message with
    | (s2, .error e) => (s2, [.findById task_id], .error e)
    | (s2, .ok failed_task) =>
      match repo.update s2 failed_task with
      | (s3, r) => (s3, [.findById task_id, .update failed_task], r)

/-- TaskManagementUseCase::cancel_task (task_management.rs lines 97-111). -/
def cancel_task (repo : TaskRepoOps σ) (svc : TaskServiceOps σ)
    (s : σ) (task_id : Uuid) : σ × List TaskRepoCall × Except Error Task :=
  match repo.find_by_id s task_id with
  | (s1, .error e) => (s1, [.findById task_id], .error e)
  | (s1, .ok none) => (s1, [.findById task_id], .error (.NotFound (taskNotFoundMsg task_id)))
  | (s1, .ok (some _task)) =>
    match svc.cancel_task s1 task_id with
    | (s2, .error e) => (s2, [.findById task_id], .error e)
    | (s2, .ok cancelled_task) =>
      match repo.update s2 cancelled_task with
      | (s3, r) => (s3, [.findById task_id, .update cancelled_task], r)

/-! ### Task statistics (src/usecase/task_management.rs lines 190-238) -/

/-- TaskStatistics record (task_management.rs lines 230-238). -/
structure TaskStatistics where
  total_tasks : Nat
  pending_tasks : Nat
  running_tasks : Nat
  completed_tasks : Nat
  failed_tasks : Nat
  cancelled_tasks : Nat
deriving DecidableEq

/-- Counting operations of the TaskRepository trait used by
get_task_statistics (src/domain/repositories.rs). -/
structure TaskCountOps (σ : Type) where
  count : σ → σ × Except Error Nat
  count_by_status : σ → TaskStatus → σ × Except Error Nat

/-- TaskManagementUseCase::get_task_statistics (task_management.rs lines
190-206): one count, then one count_by_status per TaskStatus variant —
Pending, Running, Completed, Failed, Cancelled in that order — each awaited
with `?` (early error return), assembled into TaskStatistics. -/
def get_task_statistics {σ : Type} (repo : TaskCountOps σ) (s : σ) :
    σ × Except Error TaskStatistics :=
  match repo.count s with
  | (s1, .error e) => (s1, .error e)
  | (s1, .ok total_tasks) =>
    match repo.count_by_status s1 .Pending with
    | (s2, .error e) => (s2, .error e)
    | (s2, .ok pending_tasks) =>
      match repo.count_by_status s2 .Running with
      | (s3, .error e) => (s3, .error e)
      | (s3, .ok running_tasks) =>
        match repo.count_by_status s3 .Completed with
        | (s4, .error e) => (s4, .error e)
        | (s4, .ok completed_tasks) =>
          match repo.count_by_status s4 .Failed with
          | (s5, .error e) => (s5, .error e)
          | (s5, .ok failed_tasks) =>
            match repo.count_by_status s5 .Cancelled with
            | (s6, .error e) => (s6, .error e)
            | (s6, .ok cancelled_tasks) =>
              (s6, .ok { total_tasks := total_tasks,
                         pending_tasks := pending_tasks,
                         running_tasks := running_tasks,
                         completed_tasks := completed_tasks,
                         failed_tasks := failed_tasks,
                         cancelled_tasks := cancelled_tasks })

/-- MockTaskRepository (src/src/main.rs lines 540-593): the concrete,
stateless TaskRepository wired into TaskManagementUseCase; its `count` and
`count_by_status` are hardcoded to `Ok(0)` for every status. -/
def mockTaskRepository : TaskCountOps Unit :=
  { count := fun s => (s, .ok 0),
    count_by_status := fun s _ => (s, .ok 0) }

/-! ### Agent statistics (src/usecase/agent_management.rs lines 180-205) -/

/-- Operations of the AgentRepository trait used by get_agent_statistics. -/
structure AgentRepoOps (σ : Type) where
  count : σ → σ × Except Error Nat
  find_by_status : σ → AgentStatus → σ × Except Error (List Agent)

/-- Record of one AgentRepository call made by get_agent_statistics. -/
inductive AgentRepoCall where
  | count
  | findByStatus (st : AgentStatus)
deriving DecidableEq

/-- AgentStatistics record (agent_management.rs lines 198-205). -/
structure AgentStatistics where
  total_agents : Nat
  active_agents : Nat
  inactive_agents : Nat
  training_agents : Nat
  error_agents : Nat
deriving DecidableEq

/-- AgentManagementUseCase::get_agent_statistics (agent_management.rs lines
180-194): count, then find_by_status(...).len() for Active, Inactive,
Training and Error, assembled into AgentStatistics. Each repository call is
recorded in the log. -/
def get_agent_statistics (repo : AgentRepoOps σ) (s : σ) :
    σ × List AgentRepoCall × Except Error AgentStatistics :=
  match repo.count s with
  | (s1, .error e) => (s1, [.count], .error e)
  | (s1, .ok total_agents) =>
    match repo.find_by_status s1 .Active with
    | (s2, .error e) => (s2, [.count, .findByStatus .Active], .error e)
    | (s2, .ok actives) =>
      match repo.find_by_status s2 .Inactive with
      | (s3, .error e) =>
        (s3, [.count, .findByStatus .Active, .findByStatus .Inactive], .error e)
      | (s3, .ok inactives) =>
        match repo.find_by_status s3 .Training with
        | (s4, .error e) =>
          (s4, [.count, .findByStatus .Active, .findByStatus .Inactive,
                .findByStatus .Training], .error e)
        | (s4, .ok trainings) =>
          match repo.find_by_status s4 .Error with
          | (s5, .error e) =>
            (s5, [.count, .findByStatus .Active, .findByStatus .Inactive,
                  .findByStatus .Training, .findByStatus .Error], .error e)
          | (s5, .ok errors) =>
            (s5, [.count, .findByStatus .Active, .findByStatus .Inactive,
                  .findByStatus .Training, .findByStatus .Error],
             .ok { total_agents := total_agents,
                   active_agents := actives.length,
                   inactive_agents := inactives.length,
                   training_agents := trainings.length,
                   error_agents := errors.length })

/-! ### In-memory adapters (spec section 9: substitutable fixtures used as
concrete witnesses for the parametric orchestrator theorems) -/

/-- In-memory AgentRepository over a list of agents. -/
def memAgentRepo : AgentRepoOps (List Agent) :=
  { count := fun s => (s, .ok s.length),
    find_by_status := fun s st =>
      (s, .ok (s.filter (fun a => decide (a.status = st)))) }

/-- In-memory TaskRepository over a list of tasks. -/
def memTaskRepo : TaskRepoOps (List Task) :=
  { find_by_id := fun s id => (s, .ok (s.find? (fun t => t.id == id))),
    update := fun s t =>
      (s.map (fun t0 => if t0.id == t.id then t else t0), .ok t) }

/-- Sample task used by stub collaborators in witnesses. -/
def sampleTask : Task :=
  { id := 1, agent_id := 7, name := "index", description := "sample",
    task_type := .TextGeneration, status := .Pending, priority := .Normal,
    input_data := .null, output_data := none, created_at := 0,
    started_at := none, completed_at := none, error_message := none }

/-- Stub TaskManagementService fixture: every operation answers with the
sample task (the orchestrator theorems never reach it). -/
def stubTaskService : TaskServiceOps (List Task) :=
  { start_task := fun s _ => (s, .ok sampleTask),
    complete_task := fun s _ _ => (s, .ok sampleTask),
    fail_task := fun s _ _ => (s, .ok sampleTask),
    cancel_task := fun s _ => (s, .ok sampleTask) }

/-! ### List helper lemmas -/

theorem find?_append_none {α : Type} (p : α → Bool) (l l2 : List α)
    (h : ∀ x ∈ l, p x = false) : (l ++ l2).find? p = l2.find? p := by
  induction l with
  | nil => rfl
  | cons hd tl ih =>
    have hhd := h hd (List.mem_cons_self hd tl)
    simp only [List.cons_append, List.find?, hhd]
    exact ih (fun x hx => h x (List.mem_cons_of_mem _ hx))

theorem filter_none {α : Type} (p : α → Bool) (l : List α)
    (h : ∀ x ∈ l, p x = false) : l.filter p = [] := by
  induction l with
  | nil => rfl
  | cons hd tl ih =>
    have hhd := h hd (List.mem_cons_self hd tl)
    simp only [List.filter, hhd]
    exact ih (fun x hx => h x (List.mem_cons_of_mem _ hx))

theorem filter_all_true {α : Type} (p : α → Bool) (l : List α)
    (h : ∀ x ∈ l, p x = true) : l.filter p = l := by
  induction l with
  | nil => rfl
  | cons hd tl ih =>
    have hhd := h hd (List.mem_cons_self hd tl)
    simp only [List.filter, hhd]
    exact congrArg (hd :: ·) (ih (fun x hx => h x (List.mem_cons_of_mem _ hx)))

theorem map_left_inverse {α β : Type} (f : α → β) (g : β → α) (l : List α)
    (h : ∀ x ∈ l, g (f x) = x) : (l.map f).map g = l := by
  induction l with
  | nil => rfl
  | cons hd tl ih =>
    simp only [List.map, h hd (List.mem_cons_self hd tl)]
    exact congrArg (hd :: ·) (ih (fun x hx => h x (List.mem_cons_of_mem _ hx)))

theorem find?_map_of_pred_comm {α : Type} (p : α → Bool) (f : α → α) (l : List α)
    (h : ∀ x, p (f x) = p x) : (l.map f).find? p = (l.find? p).map f := by
  induction l with
  | nil => rfl
  | cons hd tl ih =>
    simp only [List.map, List.find?, h hd]
    cases hp : p hd <;> simp [ih]

/-! ### Sample inputs for the witnesses -/

/-- Sample agent configuration. -/
def sampleConfiguration : AgentConfiguration :=
  { model_config :=
      { model_name := "gpt", model_version := "4",
        parameters := [("temperature", 77)], context_window := 8192 },
    execution_config :=
      { max_concurrent_tasks := 4, timeout_seconds := 30,
        retry_attempts := 3, memory_limit_mb := 512 },
    security_config :=
      { api_key_required := true, rate_limit := some 100,
        allowed_ips := ["10.0.0.1"], encryption_enabled := false } }

/-- Sample agent with two capabilities and two metadata entries. -/
def sampleAgent : Agent :=
  { id := 42, name := "A1", description := "first agent",
    agent_type := .Conversational, status := .Active,
    capabilities :=
      [⟨"summarize", "summarizes text", "1.0.0", [("lang", "en")]⟩,
       ⟨"translate", "translates text", "2.1.0", []⟩],
    configuration := sampleConfiguration,
    metadata := [("team", "core"), ("tier", "gold")],
    created_at := 100, updated_at := 200 }

/-- The empty database. -/
def emptyDb : Db := ⟨[], [], [], []⟩

/-! ### Claim theorems -/

theorem capOfRow_capRowOf (aid : Uuid) (c : Capability) :
    capOfRow (capRowOf aid c) = c := by
  cases c
  simp [capOfRow, capRowOf, strMap_roundtrip]

theorem create_ok_of_fresh (db : Db) (a : Agent)
    (hroot : ∀ r ∈ db.agents, r.id ≠ a.id ∧ r.name ≠ a.name) :
    create db a =
      ({ agents := db.agents ++ [agentRowOf a],
         agent_capabilities :=
           db.agent_capabilities ++ a.capabilities.map (capRowOf a.id),
         agent_configurations := db.agent_configurations ++ [cfgRowOf a],
         agent_metadata := db.agent_metadata ++ a.metadata.map (metaRowOf a.id) },
       .ok a) := by
  have hins : db.agents.any
      (fun r => r.id == (agentRowOf a).id || r.name == (agentRowOf a).name) = false := by
    simp only [List.any_eq_false, Bool.or_eq_true, beq_iff_eq, not_or, agentRowOf]
    intro r hr
    exact hroot r hr
  simp [create, insertAgentRow, hins]

/-- C1: create followed by find_by_id on a fresh aggregate id returns the
very aggregate that was created (`Ok(Some a)`), hence in particular an
aggregate whose capability collection agrees with the created one as an
unordered set keyed by capability name and whose metadata mapping agrees
with the created one. Freshness of the id across the four tables and of the
unique name stands in for the claim's "any Agent aggregate" being newly
created. -/
theorem create_find_by_id_roundtrip (db : Db) (a : Agent)
    (hroot : ∀ r ∈ db.agents, r.id ≠ a.id ∧ r.name ≠ a.name)
    (hcap : ∀ c ∈ db.agent_capabilities, c.agent_id ≠ a.id)
    (hcfg : ∀ c ∈ db.agent_configurations, c.agent_id ≠ a.id)
    (hmeta : ∀ m ∈ db.agent_metadata, m.agent_id ≠ a.id) :
    (create db a).2 = .ok a ∧
    find_by_id (create db a).1 a.id = .ok (some a) := by
  rw [create_ok_of_fresh db a hroot]
  refine ⟨rfl, ?_⟩
  have hfindRoot : (db.agents ++ [agentRowOf a]).find? (fun r => r.id == a.id) =
      some (agentRowOf a) := by
    rw [find?_append_none _ _ _
      (fun r hr => by simp [beq_iff_eq, (hroot r hr).1])]
    simp [List.find?, agentRowOf]
  have hcapsFilter :
      ((db.agent_capabilities ++ a.capabilities.map (capRowOf a.id)).filter
        (fun c => c.agent_id == a.id)) = a.capabilities.map (capRowOf a.id) := by
    rw [List.filter_append,
      filter_none _ _ (fun c hc => by simp [beq_iff_eq, hcap c hc]),
      filter_all_true _ _ (fun c hc => ?_)]
    · rfl
    · obtain ⟨c0, _, rfl⟩ := List.mem_map.mp hc
      simp [capRowOf]
  have hfindCfg : (db.agent_configurations ++ [cfgRowOf a]).find?
      (fun c => c.agent_id == a.id) = some (cfgRowOf a) := by
    rw [find?_append_none _ _ _
      (fun c hc => by simp [beq_iff_eq, hcfg c hc])]
    simp [List.find?, cfgRowOf]
  have hmetaFilter :
      ((db.agent_metadata ++ a.metadata.map (metaRowOf a.id)).filter
        (fun m => m.agent_id == a.id)) = a.metadata.map (metaRowOf a.id) := by
    rw [List.filter_append,
      filter_none _ _ (fun m hm => by simp [beq_iff_eq, hmeta m hm]),
      filter_all_true _ _ (fun m hm => ?_)]
    · rfl
    · obtain ⟨m0, _, rfl⟩ := List.mem_map.mp hm
      simp [metaRowOf]
  have hcapsDecode : (a.capabilities.map (capRowOf a.id)).map capOfRow =
      a.capabilities :=
    map_left_inverse _ _ _ (fun c _ => capOfRow_capRowOf a.id c)
  have hmetaDecode : (a.metadata.map (metaRowOf a.id)).map
      (fun m => (m.key, m.value)) = a.metadata :=
    map_left_inverse _ _ _ (fun m _ => rfl)
  simp only [find_by_id, hfindRoot, hcapsFilter, hfindCfg, hmetaFilter,
    hcapsDecode, hmetaDecode]
  simp [agentRowOf, cfgRowOf,
    AgentType_roundtrip, AgentStatus_roundtrip, ModelConfiguration_roundtrip,
    ExecutionConfiguration_roundtrip, SecurityConfiguration_roundtrip]

/-- Witness for C1 at a concrete input: the sample agent with two
capabilities and two metadata entries against the empty database. -/
theorem create_find_by_id_roundtrip_witness :
    (create emptyDb sampleAgent).2 = .ok sampleAgent ∧
    find_by_id (create emptyDb sampleAgent).1 sampleAgent.id =
      .ok (some sampleAgent) :=
  create_find_by_id_roundtrip emptyDb sampleAgent
    (by simp [emptyDb]) (by simp [emptyDb]) (by simp [emptyDb]) (by simp [emptyDb])

/-- C6: a successful create returns the stored aggregate exactly as the
caller supplied it (echo semantics, `Ok(agent.clone())` in
sqlx_repository.rs line 91) — no field, timestamps included, is mutated. -/
theorem create_echoes_input (db : Db) (a stored : Agent)
    (h : (create db a).2 = .ok stored) : stored = a := by
  unfold create at h
  cases hins : insertAgentRow db.agents (agentRowOf a) with
  | error e => rw [hins] at h; simp at h
  | ok rows => rw [hins] at h; simp at h; exact h.symm

/-- Witness for C6 at a concrete input. -/
theorem create_echoes_input_witness : sampleAgent = sampleAgent :=
  create_echoes_input emptyDb sampleAgent sampleAgent
    (by rw [create_ok_of_fresh emptyDb sampleAgent (by simp [emptyDb])])

/-- C7: when a stored root row already carries the name, a second create of
an aggregate with that name fails with Conflict (the unique-constraint
SQLSTATE 23505 mapped by `From<SqlxError> for Error`), the transaction rolls
back leaving the database exactly as it was, and the number of root rows
carrying the name is still exactly one. -/
theorem create_duplicate_name_conflict (db : Db) (a : Agent)
    (hone : (db.agents.filter (fun r => r.name == a.name)).length = 1) :
    (create db a).2 = .error (.Conflict "Unique constraint violation") ∧
    (create db a).1 = db ∧
    (((create db a).1).agents.filter (fun r => r.name == a.name)).length = 1 := by
  have hex : ∃ r ∈ db.agents, r.name = a.name := by
    have hne : db.agents.filter (fun r => r.name == a.name) ≠ [] := by
      intro h0
      rw [h0] at hone
      simp at hone
    obtain ⟨r, hr⟩ := List.exists_mem_of_ne_nil _ hne
    obtain ⟨hmem, hname⟩ := List.mem_filter.mp hr
    exact ⟨r, hmem, beq_iff_eq.mp hname⟩
  have hany : db.agents.any
      (fun r => r.id == (agentRowOf a).id || r.name == (agentRowOf a).name) = true := by
    obtain ⟨r, hr, hname⟩ := hex
    simp only [List.any_eq_true]
    exact ⟨r, hr, by simp [agentRowOf, hname]⟩
  have : create db a = (db, .error (.Conflict "Unique constraint violation")) := by
    simp [create, insertAgentRow, hany, Error.ofSqlx]
  rw [this]
  exact ⟨rfl, rfl, hone⟩

/-- Second agent carrying the sample agent's name under a fresh id. -/
def impostorAgent : Agent :=
  { sampleAgent with id := 43, description := "impostor" }

/-- Database holding exactly the sample agent. -/
def oneAgentDb : Db := (create emptyDb sampleAgent).1

/-- Witness for C7 at a concrete input: the database produced by creating
the sample agent, then a second aggregate with the same name. -/
theorem create_duplicate_name_conflict_witness :
    (create oneAgentDb impostorAgent).2 =
      .error (.Conflict "Unique constraint violation") ∧
    (create oneAgentDb impostorAgent).1 = oneAgentDb ∧
    (((create oneAgentDb impostorAgent).1).agents.filter
      (fun r => r.name == impostorAgent.name)).length = 1 :=
  create_duplicate_name_conflict oneAgentDb impostorAgent
    (by rw [oneAgentDb, create_ok_of_fresh emptyDb sampleAgent (by simp [emptyDb])]; rfl)

theorem find?_exists {α : Type} (p : α → Bool) (l : List α)
    (h : ∃ x ∈ l, p x = true) : ∃ y, l.find? p = some y ∧ p y = true := by
  induction l with
  | nil => obtain ⟨x, hx, _⟩ := h; cases hx
  | cons hd tl ih =>
    cases hp : p hd with
    | true => exact ⟨hd, by simp [List.find?, hp], hp⟩
    | false =>
      obtain ⟨x, hx, hpx⟩ := h
      rcases List.mem_cons.mp hx with rfl | hx2
      · rw [hp] at hpx; cases hpx
      · obtain ⟨y, hy, hpy⟩ := ih ⟨x, hx2, hpx⟩
        exact ⟨y, by simp [List.find?, hp, hy], hpy⟩

theorem rootUpdateRow_id (a : Agent) (now : Timestamp) (r : AgentRow) :
    (rootUpdateRow a now r).id = r.id := by
  unfold rootUpdateRow; split <;> rfl

theorem rootUpdateRow_of_ne (a : Agent) (now : Timestamp) (r : AgentRow)
    (h : r.id ≠ a.id) : rootUpdateRow a now r = r := by
  unfold rootUpdateRow
  rw [if_neg]
  simp [beq_iff_eq, h]

theorem cfgUpdateRow_agent_id (a : Agent) (c : ConfigurationRow) :
    (cfgUpdateRow a c).agent_id = c.agent_id := by
  unfold cfgUpdateRow; split <;> rfl

theorem updateAgentsTable_ok (rows : List AgentRow) (a : Agent) (now : Timestamp)
    (hname : ∀ r ∈ rows, r.id ≠ a.id → r.name ≠ a.name) :
    updateAgentsTable rows a now = .ok (rows.map (rootUpdateRow a now)) := by
  have h : rows.any (fun r => r.id != a.id && r.name == a.name) = false := by
    simp only [List.any_eq_false]
    intro r hr hcontra
    simp only [Bool.and_eq_true, bne_iff_ne, beq_iff_eq] at hcontra
    exact hname r hr hcontra.1 hcontra.2
  simp [updateAgentsTable, h]

theorem update_ok_of_name_free (db : Db) (a : Agent) (now : Timestamp)
    (hname : ∀ r ∈ db.agents, r.id ≠ a.id → r.name ≠ a.name) :
    update db a now =
      ({ agents := db.agents.map (rootUpdateRow a now),
         agent_capabilities :=
           db.agent_capabilities.filter (fun c => !(c.agent_id == a.id)) ++
             a.capabilities.map (capRowOf a.id),
         agent_configurations := db.agent_configurations.map (cfgUpdateRow a),
         agent_metadata :=
           db.agent_metadata.filter (fun m => !(m.agent_id == a.id)) ++
             a.metadata.map (metaRowOf a.id) },
       .ok a) := by
  simp [update, updateAgentsTable_ok db.agents a now hname]

theorem name_free_preserved (db : Db) (a : Agent) (now : Timestamp)
    (hname : ∀ r ∈ db.agents, r.id ≠ a.id → r.name ≠ a.name) :
    ∀ r ∈ db.agents.map (rootUpdateRow a now), r.id ≠ a.id → r.name ≠ a.name := by
  intro r hr hid
  obtain ⟨r0, hr0, rfl⟩ := List.mem_map.mp hr
  rw [rootUpdateRow_id] at hid
  rw [rootUpdateRow_of_ne a now r0 hid]
  exact hname r0 hr0 hid

theorem capRows_filter_out (a : Agent) :
    (a.capabilities.map (capRowOf a.id)).filter
      (fun c => !(c.agent_id == a.id)) = [] := by
  refine filter_none _ _ (fun c hc => ?_)
  obtain ⟨c0, _, rfl⟩ := List.mem_map.mp hc
  simp [capRowOf]

theorem metaRows_filter_out (a : Agent) :
    (a.metadata.map (metaRowOf a.id)).filter
      (fun m => !(m.agent_id == a.id)) = [] := by
  refine filter_none _ _ (fun m hm => ?_)
  obtain ⟨m0, _, rfl⟩ := List.mem_map.mp hm
  simp [metaRowOf]

theorem filter_out_idem {α : Type} (p : α → Bool) (l : List α) :
    (l.filter p).filter p = l.filter p :=
  filter_all_true _ _ (fun _x hx => (List.mem_filter.mp hx).2)

theorem caps_for_id_after_update (db : Db) (a : Agent) :
    ((db.agent_capabilities.filter (fun c => !(c.agent_id == a.id)) ++
      a.capabilities.map (capRowOf a.id)).filter
        (fun c => c.agent_id == a.id)) = a.capabilities.map (capRowOf a.id) := by
  rw [List.filter_append,
    filter_none _ _ (fun c hc => by
      have := (List.mem_filter.mp hc).2
      simp only [Bool.not_eq_true'] at this
      exact this),
    filter_all_true _ _ (fun c hc => by
      obtain ⟨c1, _, rfl⟩ := List.mem_map.mp hc
      simp [capRowOf]),
    List.nil_append]

theorem metas_for_id_after_update (db : Db) (a : Agent) :
    ((db.agent_metadata.filter (fun m => !(m.agent_id == a.id)) ++
      a.metadata.map (metaRowOf a.id)).filter
        (fun m => m.agent_id == a.id)) = a.metadata.map (metaRowOf a.id) := by
  rw [List.filter_append,
    filter_none _ _ (fun m hm => by
      have := (List.mem_filter.mp hm).2
      simp only [Bool.not_eq_true'] at this
      exact this),
    filter_all_true _ _ (fun m hm => by
      obtain ⟨m1, _, rfl⟩ := List.mem_map.mp hm
      simp [metaRowOf]),
    List.nil_append]

/-- C2: updating twice with the same aggregate leaves the capability and
metadata tables identical to a single update, and after either call the rows
carried by the aggregate's id are exactly one row per supplied capability
and per supplied metadata entry (no duplicates) — the delete-all-then-
reinsert reconciliation runs inside the same unit of work as the root-row
and configuration updates. The hypothesis rules out a unique-name collision
with a different root row, which would abort either call. -/
theorem update_idempotent_on_collections (db : Db) (a : Agent) (t1 t2 : Timestamp)
    (hname : ∀ r ∈ db.agents, r.id ≠ a.id → r.name ≠ a.name) :
    (update db a t1).2 = .ok a ∧
    (update (update db a t1).1 a t2).2 = .ok a ∧
    ((update (update db a t1).1 a t2).1).agent_capabilities =
      ((update db a t1).1).agent_capabilities ∧
    ((update (update db a t1).1 a t2).1).agent_metadata =
      ((update db a t1).1).agent_metadata ∧
    ((update db a t1).1).agent_capabilities.filter (fun c => c.agent_id == a.id) =
      a.capabilities.map (capRowOf a.id) ∧
    ((update db a t1).1).agent_metadata.filter (fun m => m.agent_id == a.id) =
      a.metadata.map (metaRowOf a.id) := by
  rw [update_ok_of_name_free db a t1 hname]
  have hname1 := name_free_preserved db a t1 hname
  rw [update_ok_of_name_free _ a t2 hname1]
  refine ⟨rfl, rfl, ?_, ?_, ?_, ?_⟩
  · show ((db.agent_capabilities.filter (fun c => !(c.agent_id == a.id)) ++
        a.capabilities.map (capRowOf a.id)).filter
          (fun c => !(c.agent_id == a.id)) ++
        a.capabilities.map (capRowOf a.id)) =
      (db.agent_capabilities.filter (fun c => !(c.agent_id == a.id)) ++
        a.capabilities.map (capRowOf a.id))
    rw [List.filter_append, capRows_filter_out, List.append_nil, filter_out_idem]
  · show ((db.agent_metadata.filter (fun m => !(m.agent_id == a.id)) ++
        a.metadata.map (metaRowOf a.id)).filter
          (fun m => !(m.agent_id == a.id)) ++
        a.metadata.map (metaRowOf a.id)) =
      (db.agent_metadata.filter (fun m => !(m.agent_id == a.id)) ++
        a.metadata.map (metaRowOf a.id))
    rw [List.filter_append, metaRows_filter_out, List.append_nil, filter_out_idem]
  · exact caps_for_id_after_update db a
  · exact metas_for_id_after_update db a

/-- Witness for C2 at a concrete input: the database holding the sample
agent, updated twice at distinct times. -/
theorem update_idempotent_on_collections_witness :
    (update oneAgentDb sampleAgent 300).2 = .ok sampleAgent ∧
    (update (update oneAgentDb sampleAgent 300).1 sampleAgent 400).2 =
      .ok sampleAgent ∧
    ((update (update oneAgentDb sampleAgent 300).1 sampleAgent 400).1).agent_capabilities =
      ((update oneAgentDb sampleAgent 300).1).agent_capabilities ∧
    ((update (update oneAgentDb sampleAgent 300).1 sampleAgent 400).1).agent_metadata =
      ((update oneAgentDb sampleAgent 300).1).agent_metadata ∧
    ((update oneAgentDb sampleAgent 300).1).agent_capabilities.filter
      (fun c => c.agent_id == sampleAgent.id) =
      sampleAgent.capabilities.map (capRowOf sampleAgent.id) ∧
    ((update oneAgentDb sampleAgent 300).1).agent_metadata.filter
      (fun m => m.agent_id == sampleAgent.id) =
      sampleAgent.metadata.map (metaRowOf sampleAgent.id) :=
  update_idempotent_on_collections oneAgentDb sampleAgent 300 400
    (by
      rw [oneAgentDb, create_ok_of_fresh emptyDb sampleAgent (by simp [emptyDb])]
      intro r hr hid
      simp only [emptyDb, List.nil_append, List.mem_singleton] at hr
      exact absurd (hr ▸ rfl) hid)

/-- C9: update writes the repository's current time (the `Utc::now()` of the
call, here `now`) into the stored root row's updated_at while echoing the
input aggregate back unchanged; a find_by_id issued after the update
therefore returns an aggregate whose updated_at is `now` and thus differs
from the updated_at of the aggregate update returned whenever `now` differs
from the input's updated_at. -/
theorem update_writes_now_into_updated_at (db : Db) (a : Agent) (now : Timestamp)
    (hname : ∀ r ∈ db.agents, r.id ≠ a.id → r.name ≠ a.name)
    (hroot : ∃ r ∈ db.agents, (r.id == a.id) = true)
    (hcfg : ∃ c ∈ db.agent_configurations, (c.agent_id == a.id) = true)
    (hnow : now ≠ a.updated_at) :
    (update db a now).2 = .ok a ∧
    ∃ res, find_by_id (update db a now).1 a.id = .ok (some res) ∧
      res.updated_at = now ∧ res.updated_at ≠ a.updated_at := by
  rw [update_ok_of_name_free db a now hname]
  refine ⟨rfl, ?_⟩
  obtain ⟨r0, hr0find, hr0p⟩ := find?_exists _ _ hroot
  obtain ⟨c0, hc0find, hc0p⟩ := find?_exists _ _ hcfg
  have hfindRoot : (db.agents.map (rootUpdateRow a now)).find?
      (fun r => r.id == a.id) = some (rootUpdateRow a now r0) := by
    rw [find?_map_of_pred_comm _ _ _
      (fun r => by rw [rootUpdateRow_id]), hr0find]
    rfl
  have hrootval : rootUpdateRow a now r0 =
      { id := r0.id, name := a.name, description := a.description,
        agent_type := a.agent_type.toJson, status := a.status.toJson,
        created_at := r0.created_at, updated_at := now } := by
    unfold rootUpdateRow
    rw [if_pos hr0p]
  have hfindCfg : (db.agent_configurations.map (cfgUpdateRow a)).find?
      (fun c => c.agent_id == a.id) = some (cfgUpdateRow a c0) := by
    rw [find?_map_of_pred_comm _ _ _
      (fun c => by rw [cfgUpdateRow_agent_id]), hc0find]
    rfl
  have hcfgval : cfgUpdateRow a c0 =
      { agent_id := c0.agent_id,
        model_config := a.configuration.model_config.toJson,
        execution_config := a.configuration.execution_config.toJson,
        security_config := a.configuration.security_config.toJson } := by
    unfold cfgUpdateRow
    rw [if_pos hc0p]
  have hcapsFilter :
      ((db.agent_capabilities.filter (fun c => !(c.agent_id == a.id)) ++
        a.capabilities.map (capRowOf a.id)).filter
          (fun c => c.agent_id == a.id)) = a.capabilities.map (capRowOf a.id) := by
    rw [List.filter_append,
      filter_none _ _ (fun c hc => by
        have := (List.mem_filter.mp hc).2
        simp only [Bool.not_eq_true'] at this
        exact this),
      filter_all_true _ _ (fun c hc => by
        obtain ⟨c1, _, rfl⟩ := List.mem_map.mp hc
        simp [capRowOf]),
      List.nil_append]
  have hmetaFilter :
      ((db.agent_metadata.filter (fun m => !(m.agent_id == a.id)) ++
        a.metadata.map (metaRowOf a.id)).filter
          (fun m => m.agent_id == a.id)) = a.metadata.map (metaRowOf a.id) := by
    rw [List.filter_append,
      filter_none _ _ (fun m hm => by
        have := (List.mem_filter.mp hm).2
        simp only [Bool.not_eq_true'] at this
        exact this),
      filter_all_true _ _ (fun m hm => by
        obtain ⟨m1, _, rfl⟩ := List.mem_map.mp hm
        simp [metaRowOf]),
      List.nil_append]
  have hcapsDecode : (a.capabilities.map (capRowOf a.id)).map capOfRow =
      a.capabilities :=
    map_left_inverse _ _ _ (fun c _ => capOfRow_capRowOf a.id c)
  have hmetaDecode : (a.metadata.map (metaRowOf a.id)).map
      (fun m => (m.key, m.value)) = a.metadata :=
    map_left_inverse _ _ _ (fun m _ => rfl)
  refine ⟨{ id := r0.id, name := a.name, description := a.description,
            agent_type := a.agent_type, status := a.status,
            capabilities := a.capabilities, configuration := a.configuration,
            metadata := a.metadata, created_at := r0.created_at,
            updated_at := now }, ?_, rfl, hnow⟩
  simp only [find_by_id, hfindRoot, hfindCfg, hrootval, hcfgval,
    hcapsFilter, hmetaFilter, hcapsDecode, hmetaDecode]
  simp [AgentType_roundtrip, AgentStatus_roundtrip, ModelConfiguration_roundtrip,
    ExecutionConfiguration_roundtrip, SecurityConfiguration_roundtrip]

/-- Witness for C9 at a concrete input: the stored sample agent updated at
time 900, whose input updated_at is 200. -/
theorem update_writes_now_into_updated_at_witness :
    (update oneAgentDb sampleAgent 900).2 = .ok sampleAgent ∧
    ∃ res, find_by_id (update oneAgentDb sampleAgent 900).1 sampleAgent.id =
        .ok (some res) ∧
      res.updated_at = 900 ∧ res.updated_at ≠ sampleAgent.updated_at :=
  update_writes_now_into_updated_at oneAgentDb sampleAgent 900
    (by
      rw [oneAgentDb, create_ok_of_fresh emptyDb sampleAgent (by simp [emptyDb])]
      intro r hr hid
      simp only [emptyDb, List.nil_append, List.mem_singleton] at hr
      exact absurd (hr ▸ rfl) hid)
    (by
      rw [oneAgentDb, create_ok_of_fresh emptyDb sampleAgent (by simp [emptyDb])]
      exact ⟨agentRowOf sampleAgent, by simp [emptyDb], rfl⟩)
    (by
      rw [oneAgentDb, create_ok_of_fresh emptyDb sampleAgent (by simp [emptyDb])]
      exact ⟨cfgRowOf sampleAgent, by simp [emptyDb], rfl⟩)
    (by decide)

/-- C4: every transition method of TaskManagementUseCase on a TaskId the
repository does not hold (find_by_id returns Ok(None)) fails with NotFound
and records no repository update call — the orchestrator converts the
missing row into NotFound before attempting the dependent mutation. -/
theorem transition_nonexistent_notFound_no_update {σ : Type}
    (repo : TaskRepoOps σ) (svc : TaskServiceOps σ) (s s1 : σ) (id : Uuid)
    (output : Json) (msg : String)
    (hfind : repo.find_by_id s id = (s1, .ok none)) :
    start_task repo svc s id =
      (s1, [.findById id], .error (.NotFound (taskNotFoundMsg id))) ∧
    complete_task repo svc s id output =
      (s1, [.findById id], .error (.NotFound (taskNotFoundMsg id))) ∧
    fail_task repo svc s id msg =
      (s1, [.findById id], .error (.NotFound (taskNotFoundMsg id))) ∧
    cancel_task repo svc s id =
      (s1, [.findById id], .error (.NotFound (taskNotFoundMsg id))) ∧
    ([TaskRepoCall.findById id].any TaskRepoCall.isUpdate) = false := by
  refine ⟨?_, ?_, ?_, ?_, by simp [TaskRepoCall.isUpdate]⟩ <;>
    simp [start_task, complete_task, fail_task, cancel_task, hfind]

/-- Witness for C4 at a concrete input: the empty in-memory task store and
task id 5. -/
theorem transition_nonexistent_notFound_no_update_witness :
    start_task memTaskRepo stubTaskService [] 5 =
      ([], [.findById 5], .error (.NotFound (taskNotFoundMsg 5))) ∧
    complete_task memTaskRepo stubTaskService [] 5 .null =
      ([], [.findById 5], .error (.NotFound (taskNotFoundMsg 5))) ∧
    fail_task memTaskRepo stubTaskService [] 5 "boom" =
      ([], [.findById 5], .error (.NotFound (taskNotFoundMsg 5))) ∧
    cancel_task memTaskRepo stubTaskService [] 5 =
      ([], [.findById 5], .error (.NotFound (taskNotFoundMsg 5))) ∧
    ([TaskRepoCall.findById 5].any TaskRepoCall.isUpdate) = false :=
  transition_nonexistent_notFound_no_update memTaskRepo stubTaskService
    [] [] 5 .null "boom" rfl

/-- C5: the Task statistics query as wired in src — get_task_statistics
over MockTaskRepository, the concrete TaskRepository constructed in main.rs
— succeeds and returns a TaskStatistics record whose five per-status counts
(pending, running, completed, failed, cancelled) sum to its total_tasks
count: every counter comes back as the repository's hardcoded Ok(0), so the
sum identity holds (0 = 0) with no concurrent mutation possible in the
stateless mock. -/
theorem task_statistics_sum_consistent_mock :
    ∃ stats, (get_task_statistics mockTaskRepository ()).2 = .ok stats ∧
      stats.pending_tasks + stats.running_tasks + stats.completed_tasks +
        stats.failed_tasks + stats.cancelled_tasks = stats.total_tasks ∧
      stats = { total_tasks := 0, pending_tasks := 0, running_tasks := 0,
                completed_tasks := 0, failed_tasks := 0,
                cancelled_tasks := 0 } :=
  ⟨{ total_tasks := 0, pending_tasks := 0, running_tasks := 0,
     completed_tasks := 0, failed_tasks := 0, cancelled_tasks := 0 },
   rfl, rfl, rfl⟩

/-- C3 counterexample: at the concrete input of the in-memory agent
repository holding the sample agent, get_agent_statistics issues exactly
one count and one find_by_status for Active, Inactive, Training and Error —
and no call at all for Maintenance, contradicting the claim that a
per-status count is issued for each of the five AgentStatus values. -/
theorem agent_statistics_skips_maintenance_cex :
    (get_agent_statistics memAgentRepo [sampleAgent]).2.1 =
      [.count, .findByStatus .Active, .findByStatus .Inactive,
       .findByStatus .Training, .findByStatus .Error] ∧
    AgentRepoCall.findByStatus .Maintenance ∉
      (get_agent_statistics memAgentRepo [sampleAgent]).2.1 ∧
    (get_agent_statistics memAgentRepo [sampleAgent]).2.2 =
      .ok { total_agents := 1, active_agents := 1, inactive_agents := 0,
            training_agents := 0, error_agents := 0 } :=
  ⟨rfl, by decide, rfl⟩

/-- C3 amended: get_agent_statistics issues one count call and one
find_by_status call for each of Active, Inactive, Training and Error — but
none for Maintenance — and assembles the five-field AgentStatistics record
(total plus those four counters; no Maintenance counter exists). -/
theorem agent_statistics_four_status_queries {σ : Type} (repo : AgentRepoOps σ)
    (s s1 s2 s3 s4 s5 : σ) (n : Nat) (la li lt le : List Agent)
    (hc : repo.count s = (s1, .ok n))
    (ha : repo.find_by_status s1 .Active = (s2, .ok la))
    (hi : repo.find_by_status s2 .Inactive = (s3, .ok li))
    (ht : repo.find_by_status s3 .Training = (s4, .ok lt))
    (he : repo.find_by_status s4 .Error = (s5, .ok le)) :
    get_agent_statistics repo s =
      (s5, [.count, .findByStatus .Active, .findByStatus .Inactive,
            .findByStatus .Training, .findByStatus .Error],
       .ok { total_agents := n, active_agents := la.length,
             inactive_agents := li.length, training_agents := lt.length,
             error_agents := le.length }) ∧
    AgentRepoCall.findByStatus .Maintenance ∉
      (get_agent_statistics repo s).2.1 := by
  have hrun : get_agent_statistics repo s =
      (s5, [.count, .findByStatus .Active, .findByStatus .Inactive,
            .findByStatus .Training, .findByStatus .Error],
       .ok { total_agents := n, active_agents := la.length,
             inactive_agents := li.length, training_agents := lt.length,
             error_agents := le.length }) := by
    simp [get_agent_statistics, hc, ha, hi, ht, he]
  rw [hrun]
  refine ⟨rfl, ?_⟩
  show AgentRepoCall.findByStatus .Maintenance ∉
    [AgentRepoCall.count, .findByStatus .Active, .findByStatus .Inactive,
     .findByStatus .Training, .findByStatus .Error]
  decide

/-- Witness for the amended C3 at a concrete input: the in-memory agent
repository holding the sample agent. -/
theorem agent_statistics_four_status_queries_witness :
    get_agent_statistics memAgentRepo [sampleAgent] =
      ([sampleAgent],
       [.count, .findByStatus .Active, .findByStatus .Inactive,
        .findByStatus .Training, .findByStatus .Error],
       .ok { total_agents := 1, active_agents := 1,
             inactive_agents := 0, training_agents := 0,
             error_agents := 0 }) ∧
    AgentRepoCall.findByStatus .Maintenance ∉
      (get_agent_statistics memAgentRepo [sampleAgent]).2.1 :=
  agent_statistics_four_status_queries memAgentRepo
    [sampleAgent] [sampleAgent] [sampleAgent] [sampleAgent] [sampleAgent] [sampleAgent]
    1 [sampleAgent] [] [] [] rfl rfl rfl rfl rfl

/-- Database corrupted as claim C8 describes: a root row for the sample
agent exists, but no configuration row at all. -/
def corruptDb : Db :=
  { agents := [agentRowOf sampleAgent], agent_capabilities := [],
    agent_configurations := [], agent_metadata := [] }

/-- C8 counterexample: on a database holding a root row for id 42 but no
configuration row, find_by_id fails with precisely the NotFound kind
(`Error::NotFound "Row not found"`, sqlx RowNotFound mapped through From) —
contradicting the claim that the error is not the NotFound kind. It does
fail loudly: the result is an error, not Ok(None) and not a defaulted
aggregate. -/
theorem find_missing_config_notFound_cex :
    find_by_id corruptDb 42 = .error (.NotFound "Row not found") := by
  rfl

/-- C8 amended: when a root row for the requested id exists but no
configuration row does, the read fails loudly — it returns an error, never
Ok(None) and never an aggregate with a defaulted configuration — but the
error kind is NotFound (fetch_one's RowNotFound mapped by From<SqlxError>),
not a distinct corruption kind. -/
theorem find_missing_config_fails_loudly (db : Db) (id : Uuid) (r : AgentRow)
    (hfind : db.agents.find? (fun row => row.id == id) = some r)
    (hnocfg : ∀ c ∈ db.agent_configurations, c.agent_id ≠ id) :
    find_by_id db id = .error (.NotFound "Row not found") := by
  have hcfgnone : db.agent_configurations.find? (fun c => c.agent_id == id) = none := by
    rw [← List.append_nil db.agent_configurations]
    rw [find?_append_none _ _ _
      (fun c hc => by simp [beq_iff_eq, hnocfg c hc])]
    rfl
  simp [find_by_id, hfind, hcfgnone, Error.ofSqlx]

/-- Witness for the amended C8 at the concrete corrupted database. -/
theorem find_missing_config_fails_loudly_witness :
    find_by_id corruptDb 42 = .error (.NotFound "Row not found") :=
  find_missing_config_fails_loudly corruptDb 42 (agentRowOf sampleAgent)
    rfl (by simp [corruptDb])

/-- C10: a stored capability row whose parameters JSON does not deserialize
into a string-to-string map does not fail the read: find_by_id succeeds and
returns that capability with the empty parameters map (unwrap_or_default),
in contrast to the loud failure on a missing configuration row. -/
theorem capability_bad_parameters_silent_default (db : Db) (id : Uuid)
    (r : AgentRow) (cfg : ConfigurationRow) (c : CapabilityRow)
    (ty : AgentType) (st : AgentStatus) (mc : ModelConfiguration)
    (ec : ExecutionConfiguration) (sc : SecurityConfiguration)
    (hfindr : db.agents.find? (fun row => row.id == id) = some r)
    (hfindcfg : db.agent_configurations.find? (fun x => x.agent_id == id) = some cfg)
    (hty : AgentType.fromJson? r.agent_type = some ty)
    (hst : AgentStatus.fromJson? r.status = some st)
    (hmc : ModelConfiguration.fromJson? cfg.model_config = some mc)
    (hec : ExecutionConfiguration.fromJson? cfg.execution_config = some ec)
    (hsc : SecurityConfiguration.fromJson? cfg.security_config = some sc)
    (hc : c ∈ db.agent_capabilities) (hcid : c.agent_id = id)
    (hbad : strMapFromJson? c.parameters = none) :
    ∃ ag, find_by_id db id = .ok (some ag) ∧
      (⟨c.name, c.description, c.version, []⟩ : Capability) ∈ ag.capabilities := by
  refine ⟨{ id := r.id, name := r.name, description := r.description,
            agent_type := ty, status := st,
            capabilities :=
              (db.agent_capabilities.filter (fun x => x.agent_id == id)).map capOfRow,
            configuration := ⟨mc, ec, sc⟩,
            metadata :=
              (db.agent_metadata.filter (fun m => m.agent_id == id)).map
                (fun m => (m.key, m.value)),
            created_at := r.created_at, updated_at := r.updated_at }, ?_, ?_⟩
  · simp [find_by_id, hfindr, hfindcfg, hty, hst, hmc, hec, hsc]
  · have hmemf : c ∈ db.agent_capabilities.filter (fun x => x.agent_id == id) :=
      List.mem_filter.mpr ⟨hc, by simp [beq_iff_eq, hcid]⟩
    have hcval : capOfRow c = ⟨c.name, c.description, c.version, []⟩ := by
      simp [capOfRow, hbad]
    exact hcval ▸ List.mem_map_of_mem capOfRow hmemf

/-- Database holding the sample agent's root and configuration rows plus one
capability row whose parameters column is the JSON number 5. -/
def badCapDb : Db :=
  { agents := [agentRowOf sampleAgent],
    agent_capabilities :=
      [{ agent_id := 42, name := "broken", description := "bad parameters",
         version := "0.1.0", parameters := .num 5 }],
    agent_configurations := [cfgRowOf sampleAgent],
    agent_metadata := [] }

/-- Witness for C10 at the concrete database with the corrupt capability
row. -/
theorem capability_bad_parameters_silent_default_witness :
    ∃ ag, find_by_id badCapDb 42 = .ok (some ag) ∧
      (⟨"broken", "bad parameters", "0.1.0", []⟩ : Capability) ∈ ag.capabilities :=
  capability_bad_parameters_silent_default badCapDb 42
    (agentRowOf sampleAgent) (cfgRowOf sampleAgent)
    { agent_id := 42, name := "broken", description := "bad parameters",
      version := "0.1.0", parameters := .num 5 }
    sampleAgent.agent_type sampleAgent.status
    sampleConfiguration.model_config sampleConfiguration.execution_config
    sampleConfiguration.security_config
    rfl rfl rfl rfl rfl rfl rfl (by simp [badCapDb]) rfl rfl

end AgentCore
